import Mathlib

/-
Verification development for the radar-selection-and-caching pipeline of the
eink repository (src/weather_generator.py).

The pure image functions (`images_are_equal`, `distance`/`quantize_to_seven_colors`,
`calculate_non_bw_percentage`) are embedded directly.  The source computes
Euclidean distances with `math.sqrt`; since every comparison the program makes
on a distance (`distance p white <= threshold` with a nonnegative integer
threshold, and `min(palette, key=distance)`) is monotone in the distance and
all squared distances are small integers (so the correctly rounded square
roots of distinct integers are distinct doubles), the embedding compares
squared distances instead, which decides every comparison identically.

The stateful orchestrator (`main`, `full_station_scan`, `generate_weather_image`)
is embedded as explicit state passing that returns an event trace (network
fetches, state-file writes, display calls) together with an `Except`-style
result; a Python `TypeError` raised by unpacking `None` is the `.typeError`
run error.  Network and compositing effects are supplied by the environment:
`Env.gwi` gives, per station, the outcome of one `generate_weather_image`
call (fetch failure, or success with the changed-flag and the interest
percentage of the freshly written quantized artifact), and the finer-grained
file model `generate_weather_image_file` takes the fetched frame and the
composed canvas as inputs.
-/

namespace Eink

/-- An RGB pixel, components as unbounded integers (PIL pixels are 0..255;
none of the verified code depends on the bound). -/
structure RGB where
  r : Int
  g : Int
  b : Int
deriving DecidableEq, Repr

/-- `white = (255, 255, 255)` from `quantize_to_seven_colors`. -/
def white : RGB := ⟨255, 255, 255⟩

/-- The fixed non-white palette `palette_5` of `quantize_to_seven_colors`,
in declaration order: red, green, blue, yellow, orange, black. -/
def palette5 : List RGB :=
  [⟨255, 0, 0⟩, ⟨0, 255, 0⟩, ⟨0, 0, 255⟩, ⟨255, 255, 0⟩, ⟨255, 128, 0⟩, ⟨0, 0, 0⟩]

/-- Squared Euclidean distance in RGB space; the square of the source's
`distance` function. -/
def distSq (c1 c2 : RGB) : Int :=
  (c1.r - c2.r) ^ 2 + (c1.g - c2.g) ^ 2 + (c1.b - c2.b) ^ 2

/-- A PIL image as the pipeline sees it: color mode, size, and the flat pixel
sequence `list(img.getdata())`. -/
structure Img where
  mode : String
  width : Nat
  height : Nat
  data : List RGB
deriving DecidableEq, Repr

/-- `images_are_equal` from src/weather_generator.py: mode and size must
match, then the pixel sequences are compared exactly. -/
def images_are_equal (img1 img2 : Img) : Bool :=
  if img1.mode ≠ img2.mode ∨ (img1.width, img1.height) ≠ (img2.width, img2.height) then
    false
  else
    decide (img1.data = img2.data)

/-- Python's `min(l, key=key)` specialised to a nonempty list given as
head `b` and tail `l`: the running best is replaced only on a strictly
smaller key, so the first minimiser wins. -/
def minBy (key : RGB → Int) (b : RGB) : List RGB → RGB
  | [] => b
  | c :: cs => minBy key (if key c < key b then c else b) cs

/-- `min(palette_5, key=lambda color: distance(p, color))` from
`quantize_to_seven_colors`. -/
def bestColor (p : RGB) : RGB :=
  minBy (fun c => distSq p c) ⟨255, 0, 0⟩
    [⟨0, 255, 0⟩, ⟨0, 0, 255⟩, ⟨255, 255, 0⟩, ⟨255, 128, 0⟩, ⟨0, 0, 0⟩]

/-- The per-pixel body of `quantize_to_seven_colors`: pixels within the
white threshold (compared via squared distances) become white, all others
the closest palette color, first declared wins ties. -/
def quantizePixel (t : Nat) (p : RGB) : RGB :=
  if distSq p white ≤ (t : Int) ^ 2 then white else bestColor p

/-- `quantize_to_seven_colors` from src/weather_generator.py, applied to an
in-memory image (the source reads the canvas from disk, converts to RGB,
rewrites every pixel in place, and saves the result). -/
def quantize_to_seven_colors (t : Nat) (img : Img) : Img :=
  { mode := "RGB", width := img.width, height := img.height,
    data := img.data.map (quantizePixel t) }

/-- `calculate_non_bw_percentage` from src/weather_generator.py: the
percentage of pixels that are neither pure black nor pure white, 0 for an
empty pixel list.  Exact rational arithmetic stands in for Python floats. -/
def calculate_non_bw_percentage (img : Img) : ℚ :=
  let pixels := img.data
  if pixels = [] then 0
  else
    ((pixels.countP fun p => decide (p ≠ ⟨0, 0, 0⟩ ∧ p ≠ ⟨255, 255, 255⟩) : ℚ) /
      (pixels.length : ℚ)) * 100

/-- The quantized-artifact path `os.path.join("radar", f"eink_quantized_display_{station}.bmp")`. -/
def quantPath (st : String) : String :=
  "radar/eink_quantized_display_" ++ st ++ ".bmp"

/-- Outcome of one `generate_weather_image` call as `main` and
`full_station_scan` observe it: `fetchFail` models the `None` return after a
failed fetch or content check; `ok updated percentage` models a successful
run, where `updated` is the returned changed-flag and `percentage` is
`calculate_non_bw_percentage` of the quantized file the call just wrote
(the file is rewritten on every successful call). -/
inductive GwiOutcome
  | fetchFail
  | ok (updated : Bool) (percentage : ℚ)
deriving DecidableEq, Repr

/-- The persistent state file `radar/radar_state.json`: optional
`last_full_scan` epoch time and the cached `top5` list of
(station, percentage) pairs. -/
structure Cache where
  last : Option Int
  top5 : List (String × ℚ)
deriving DecidableEq, Repr

/-- Observable events of one `main` cycle: a `generate_weather_image`
network fetch for a station, a display-sink call, and the two
`save_state` writes (the first right after setting `last_full_scan`,
the second after storing the new `top5`). -/
inductive Ev
  | netFetch (station : String)
  | display (path : String)
  | saveTimestamp (t : Int)
  | saveTop5 (top5 : List (String × ℚ))
deriving DecidableEq, Repr

/-- A Python runtime error aborting the cycle: unpacking the `None`
returned by `generate_weather_image` into `image_path, updated` raises
`TypeError`. -/
inductive RunErr
  | typeError
deriving DecidableEq, Repr

/-- The environment of one cycle: everything `main` reads from the config,
the clock, the state file, and the network.  `gwi s` is the outcome
`generate_weather_image` would produce for station `s` this cycle. -/
structure Env where
  now : Int
  full_scan_interval : Int
  interesting_threshold : ℚ
  defaultStation : String
  stations : List String
  state : Option Cache
  isLinux : Bool
  gwi : String → GwiOutcome

/-- The cached top5 `main` adopts: present only when the state file holds a
truthy `last_full_scan` (Python's `state.get("last_full_scan")` is falsy for
a missing key and for 0) within `full_scan_interval` of now. -/
def cachedTop5 (env : Env) : List (String × ℚ) :=
  match env.state with
  | none => []
  | some c =>
    match c.last with
    | none => []
    | some t => if t ≠ 0 ∧ env.now - t < env.full_scan_interval then c.top5 else []

/-- `state.get("last_full_scan", 0)` used by the staleness check. -/
def lastTimeD (env : Env) : Int :=
  match env.state with
  | none => 0
  | some c => c.last.getD 0

/-- The in-memory state dict after `load_state(STATE_FILE) or {}`. -/
def initCache (env : Env) : Cache :=
  match env.state with
  | none => ⟨none, []⟩
  | some c => c

/-- `full_station_scan` from src/weather_generator.py: iterate the
configured stations (an empty name models a station entry without a name
and is skipped), call `generate_weather_image` for each, skip a station
whose call returned `None` (fetch failure), otherwise record the percentage
of its freshly written quantized image. -/
def full_station_scan (gwi : String → GwiOutcome) : List String → List Ev × List (String × ℚ)
  | [] => ([], [])
  | st :: rest =>
    if st = "" then full_station_scan gwi rest
    else
      match gwi st with
      | .fetchFail =>
        let r := full_station_scan gwi rest
        (Ev.netFetch st :: r.1, r.2)
      | .ok _ perc =>
        let r := full_station_scan gwi rest
        (Ev.netFetch st :: r.1, (st, perc) :: r.2)

/-- Stable descending insertion: an element goes before the first strictly
smaller score, so earlier elements win ties — the unique output of Python's
stable `sorted(..., key=lambda x: x[1], reverse=True)`. -/
def insertDesc (x : String × ℚ) : List (String × ℚ) → List (String × ℚ)
  | [] => [x]
  | y :: ys => if y.2 ≤ x.2 then x :: y :: ys else y :: insertDesc x ys

/-- Stable descending sort by score. -/
def sortDesc : List (String × ℚ) → List (String × ℚ)
  | [] => []
  | x :: xs => insertDesc x (sortDesc xs)

/-- `update_top5` from src/weather_generator.py: sort descending by
percentage and keep the first five. -/
def update_top5 (ps : List (String × ℚ)) : List (String × ℚ) :=
  (sortDesc ps).take 5

/-- The loop state of `main`'s top5 candidate loop:
`best_station`, `best_percentage`, `best_image_path`, `should_update`. -/
structure LoopAcc where
  best_station : Option String
  best_percentage : ℚ
  best_image_path : Option String
  should_update : Bool
deriving DecidableEq, Repr

/-- `main`'s candidate loop over the cached top5 stations
(src/weather_generator.py lines 275-290).  A fetch failure makes
`generate_weather_image` return `None`, and the tuple unpacking
`image_path, updated = ...` then raises `TypeError`, aborting the run.
On success with `updated == False` the returned path is `None` and the
`if image_path is None: continue` branch skips the station; otherwise
`should_update` is set and the strictly-better comparison
`perc > best_percentage` updates the running best. -/
def candidateLoop (gwi : String → GwiOutcome) : List String → LoopAcc → List Ev × Except RunErr LoopAcc
  | [], acc => ([], .ok acc)
  | st :: rest, acc =>
    match gwi st with
    | .fetchFail => ([Ev.netFetch st], .error .typeError)
    | .ok updated perc =>
      if updated = false then
        let r := candidateLoop gwi rest acc
        (Ev.netFetch st :: r.1, r.2)
      else
        let acc1 : LoopAcc :=
          if acc.best_percentage < perc then ⟨some st, perc, some (quantPath st), true⟩
          else { acc with should_update := true }
        let r := candidateLoop gwi rest acc1
        (Ev.netFetch st :: r.1, r.2)

/-- Python truthiness of `best_station` (None and the empty string are
falsy) in `if best_station and best_image_path is not None`. -/
def truthy : Option String → Bool
  | none => false
  | some s => decide (s ≠ "")

/-- Result of a completed `main` cycle: the final display image path,
whether the display sink would have been invoked (`should_update`), and
the in-memory state at exit. -/
structure MainResult where
  final_display : String
  displayed : Bool
  cache : Cache
deriving DecidableEq, Repr

/-- The full-refresh tail of `main` (lines 304-317): when
`now - state.get("last_full_scan", 0) >= full_scan_interval`, first set
and persist the timestamp, then run the full scan, then persist the new
top5; otherwise do nothing. -/
def scanPhase (env : Env) (cache : Cache) : List Ev × Cache :=
  if env.full_scan_interval ≤ env.now - lastTimeD env then
    let scan := full_station_scan env.gwi env.stations
    let t5 := update_top5 scan.2
    (Ev.saveTimestamp env.now :: scan.1 ++ [Ev.saveTop5 t5],
      { last := some env.now, top5 := t5 })
  else ([], cache)

/-- `main` from src/weather_generator.py as one cycle over an environment,
returning the event trace and the result (or the aborting runtime error).
The default station's fetch failure also aborts: line 260 unpacks the
`None` return.  When the default image is unchanged, `default_image_path`
is re-pointed at the quantized path, so the final display path is the
default's quantized path in both success branches. -/
def mainModel (env : Env) : List Ev × Except RunErr MainResult :=
  let top5_list := cachedTop5 env
  match env.gwi env.defaultStation with
  | .fetchFail => ([Ev.netFetch env.defaultStation], .error .typeError)
  | .ok default_updated default_percentage =>
    let ev0 := [Ev.netFetch env.defaultStation]
    let final0 := quantPath env.defaultStation
    let step1 :=
      if default_updated = true ∧ default_percentage < env.interesting_threshold ∧ top5_list ≠ [] then
        candidateLoop env.gwi (top5_list.map Prod.fst) ⟨none, 0, none, default_updated⟩
      else ([], .ok ⟨none, 0, none, default_updated⟩)
    match step1.2 with
    | .error e => (ev0 ++ step1.1, .error e)
    | .ok acc =>
      let final1 :=
        if truthy acc.best_station = true ∧ acc.best_image_path ≠ none then
          acc.best_image_path.getD final0
        else final0
      if acc.should_update = true then
        let ev2 := if env.isLinux then [Ev.display final1] else []
        let step3 := scanPhase env (initCache env)
        (ev0 ++ step1.1 ++ ev2 ++ step3.1, .ok ⟨final1, true, step3.2⟩)
      else
        (ev0 ++ step1.1, .ok ⟨final1, false, initCache env⟩)

/-- File-level events of one `generate_weather_image` call: the network
fetch of the radar frame, the save of the composed raw canvas
(`final_img.save(output_path)`), and the save of the quantized artifact
performed inside `quantize_to_seven_colors`. -/
inductive FEv
  | netFetch
  | writeRaw (img : Img)
  | writeQuant (img : Img)
deriving DecidableEq, Repr

/-- The `ValueError` raised for an invalid `radar_mode`. -/
inductive GwiErr
  | invalidMode
deriving DecidableEq, Repr

/-- `generate_weather_image` from src/weather_generator.py at file
granularity.  `fetched` is the decoded radar frame (`none` models the
fetch/content-type failure paths that return `None` before anything is
written); `compose` abstracts lines 122-181 (scale or fit onto the canvas
plus QR/text/leaderboard overlays) for the configured mode; `oldQuant` is
the current content of the station's quantized file; `radar_mode` is the
already lower-cased configured mode, `config.get("radar_mode", "crop").lower()`.
Source order: the retry fetch loop runs first; only then is the mode
dispatched, raising `ValueError` on anything but "crop"/"fit"; on the valid paths the raw
canvas is saved, the quantized image is recomputed with threshold 75 and
saved unconditionally, and only afterwards is it compared with the old one
to choose the `(None, False)` or `(path, True)` return. -/
def generate_weather_image_file (radar_mode : String) (station : String)
    (fetched : Option Img) (compose : Img → Img) (oldQuant : Option Img) :
    List FEv × Except GwiErr (Option (Option String × Bool)) :=
  match fetched with
  | none => ([FEv.netFetch], .ok none)
  | some raw =>
    if radar_mode = "crop" ∨ radar_mode = "fit" then
      let final_img := compose raw
      let new_quant := quantize_to_seven_colors 75 final_img
      ([FEv.netFetch, FEv.writeRaw final_img, FEv.writeQuant new_quant],
        .ok (some (match oldQuant with
          | some oq =>
            if images_are_equal oq new_quant then (none, false)
            else (some (quantPath station), true)
          | none => (some (quantPath station), true))))
    else ([FEv.netFetch], .error .invalidMode)

/-- A 1-by-1 black image. -/
def imgA : Img := ⟨"RGB", 1, 1, [⟨0, 0, 0⟩]⟩

/-- A 2-by-1 image with the same single pixel but different declared size. -/
def imgB : Img := ⟨"RGB", 2, 1, [⟨0, 0, 0⟩]⟩

/-- A 2-by-1 image with one red and one black pixel, scoring 50. -/
def imgHalf : Img := ⟨"RGB", 2, 1, [⟨255, 0, 0⟩, ⟨0, 0, 0⟩]⟩

/-- A 1-by-1 image whose single pixel (230, 230, 0) quantizes to yellow at
threshold 255 but whose yellow then collapses to white on a second pass. -/
def imgYellow : Img := ⟨"RGB", 1, 1, [⟨230, 230, 0⟩]⟩

/-- A 1-by-1 black canvas used as a concrete composed image. -/
def canvasC4 : Img := ⟨"RGB", 1, 1, [⟨0, 0, 0⟩]⟩

/-- Environment refuting C1: the default station KDEF changed and scored
5 (below threshold 15); the fresh cached top5 names KABC, whose fresh
evaluation scores only 3. -/
def envC1 : Env :=
  { now := 200, full_scan_interval := 3600, interesting_threshold := 15,
    defaultStation := "KDEF", stations := ["KDEF", "KABC"],
    state := some ⟨some 100, [("KABC", 60)]⟩, isLinux := false,
    gwi := fun s => if s = "KDEF" then .ok true 5 else if s = "KABC" then .ok true 3 else .fetchFail }

/-- Environment exhibiting the C2 code bug: the default changed and
scored below threshold, the fresh cached top5 names KAAA, and KAAA's
fetch fails. -/
def envC2 : Env :=
  { now := 200, full_scan_interval := 3600, interesting_threshold := 15,
    defaultStation := "KDEF", stations := ["KDEF", "KAAA"],
    state := some ⟨some 100, [("KAAA", 60)]⟩, isLinux := false,
    gwi := fun s => if s = "KDEF" then .ok true 5 else .fetchFail }

/-- Environment refuting C3: the cache is stale (last full scan 9000
seconds ago with a 3600-second interval) but the default station's image
is unchanged this cycle. -/
def envC3 : Env :=
  { now := 10000, full_scan_interval := 3600, interesting_threshold := 15,
    defaultStation := "KDEF", stations := ["KDEF"],
    state := some ⟨some 1000, [("KABC", 60)]⟩, isLinux := false,
    gwi := fun s => if s = "KDEF" then .ok false 50 else .fetchFail }

/-- Environment for the positive scan scenario: stale cache, default
changed, two-station scan set. -/
def envC8 : Env :=
  { now := 10000, full_scan_interval := 3600, interesting_threshold := 15,
    defaultStation := "KDEF", stations := ["KAAA", "KBBB"],
    state := some ⟨some 1000, []⟩, isLinux := true,
    gwi := fun s => if s = "KDEF" then .ok true 40 else .ok true 20 }

/-- The candidates the loop actually scores: stations whose
`generate_weather_image` call succeeds with `updated == True`, paired with
the interest percentage of their freshly written quantized image, in
top5 order. -/
def evalCands (gwi : String → GwiOutcome) (names : List String) : List (String × ℚ) :=
  names.filterMap fun s =>
    match gwi s with
    | .ok true q => some (s, q)
    | _ => none

/-- The pure content of the candidate loop on the scored candidates:
replace the running best only on a strictly larger percentage. -/
def runBest (acc : LoopAcc) : List (String × ℚ) → LoopAcc
  | [] => acc
  | x :: rest =>
    runBest (if acc.best_percentage < x.2 then ⟨some x.1, x.2, some (quantPath x.1), true⟩
      else { acc with should_update := true }) rest

instance {e a : Type} [DecidableEq e] [DecidableEq a] : DecidableEq (Except e a) := fun x y =>
  match x, y with
  | .ok u, .ok v =>
    if h : u = v then .isTrue (by rw [h]) else .isFalse (by intro hc; cases hc; exact h rfl)
  | .error u, .error v =>
    if h : u = v then .isTrue (by rw [h]) else .isFalse (by intro hc; cases hc; exact h rfl)
  | .ok _, .error _ => .isFalse (by intro hc; cases hc)
  | .error _, .ok _ => .isFalse (by intro hc; cases hc)

theorem images_are_equal_iff (a b : Img) :
    images_are_equal a b = true ↔
      (a.mode = b.mode ∧ a.width = b.width ∧ a.height = b.height ∧ a.data = b.data) := by
  constructor
  · intro h
    unfold images_are_equal at h
    split at h
    · exact absurd h (by simp)
    · next hc =>
      push_neg at hc
      refine ⟨hc.1, ?_, ?_, of_decide_eq_true h⟩
      · exact congrArg Prod.fst hc.2
      · exact congrArg Prod.snd hc.2
  · intro ⟨h1, h2, h3, h4⟩
    unfold images_are_equal
    rw [if_neg, decide_eq_true h4]
    push_neg
    exact ⟨h1, by rw [h2, h3]⟩

/-- C7: the change detector `images_are_equal` returns true exactly when
color mode, pixel dimensions and the full pixel sequences coincide; it is
reflexive and symmetric, and any mode or dimension mismatch forces a false
result regardless of pixel content. -/
theorem C7_change_detector (a b : Img) :
    (images_are_equal a b = true ↔
      (a.mode = b.mode ∧ a.width = b.width ∧ a.height = b.height ∧ a.data = b.data)) ∧
    images_are_equal a a = true ∧
    images_are_equal a b = images_are_equal b a ∧
    ((a.mode ≠ b.mode ∨ a.width ≠ b.width ∨ a.height ≠ b.height) →
      images_are_equal a b = false) := by
  refine ⟨images_are_equal_iff a b, ?_, ?_, ?_⟩
  · exact (images_are_equal_iff a a).mpr ⟨rfl, rfl, rfl, rfl⟩
  · rw [Bool.eq_iff_iff, images_are_equal_iff a b, images_are_equal_iff b a]
    constructor
    · intro ⟨h1, h2, h3, h4⟩
      exact ⟨h1.symm, h2.symm, h3.symm, h4.symm⟩
    · intro ⟨h1, h2, h3, h4⟩
      exact ⟨h1.symm, h2.symm, h3.symm, h4.symm⟩
  · intro h
    cases heq : images_are_equal a b with
    | false => rfl
    | true =>
      obtain ⟨h1, h2, h3, _⟩ := (images_are_equal_iff a b).mp heq
      rcases h with h | h | h
      · exact absurd h1 h
      · exact absurd h2 h
      · exact absurd h3 h

/-- Witness for C7 at concrete images: a width mismatch forces false. -/
theorem C7_witness : images_are_equal imgA imgB = false :=
  (C7_change_detector imgA imgB).2.2.2 (Or.inr (Or.inl (by decide)))

/-- C6: the interest score is 100 times the fraction of pixels that are
neither pure black nor pure white, lies in [0, 100], is 0 for an empty
pixel list and for any all-black-and-white image, and is 100 for a
nonempty image with no black or white pixel. -/
theorem C6_interest_score (img : Img) :
    (img.data ≠ [] → calculate_non_bw_percentage img =
      100 * ((img.data.countP fun p => decide (p ≠ ⟨0, 0, 0⟩ ∧ p ≠ ⟨255, 255, 255⟩)) : ℚ) /
        (img.data.length : ℚ)) ∧
    0 ≤ calculate_non_bw_percentage img ∧
    calculate_non_bw_percentage img ≤ 100 ∧
    (img.data = [] → calculate_non_bw_percentage img = 0) ∧
    ((∀ p ∈ img.data, p = ⟨0, 0, 0⟩ ∨ p = ⟨255, 255, 255⟩) →
      calculate_non_bw_percentage img = 0) ∧
    (img.data ≠ [] → (∀ p ∈ img.data, p ≠ ⟨0, 0, 0⟩ ∧ p ≠ ⟨255, 255, 255⟩) →
      calculate_non_bw_percentage img = 100) := by
  unfold calculate_non_bw_percentage
  by_cases hemp : img.data = []
  · rw [if_pos hemp]
    refine ⟨fun h => absurd hemp h, le_refl 0, by norm_num, fun _ => rfl, fun _ => rfl,
      fun h => absurd hemp h⟩
  · rw [if_neg hemp]
    have hlen : 0 < img.data.length := List.length_pos.mpr hemp
    have hlenQ : (0 : ℚ) < (img.data.length : ℚ) := by exact_mod_cast hlen
    have hcnt : ((img.data.countP fun p => decide (p ≠ ⟨0, 0, 0⟩ ∧ p ≠ ⟨255, 255, 255⟩)) : ℚ) ≤
        (img.data.length : ℚ) := by
      exact_mod_cast List.countP_le_length _
    have hcnt0 : (0 : ℚ) ≤
        ((img.data.countP fun p => decide (p ≠ ⟨0, 0, 0⟩ ∧ p ≠ ⟨255, 255, 255⟩)) : ℚ) := by
      positivity
    refine ⟨fun _ => by ring, ?_, ?_, fun h => absurd h hemp, ?_, ?_⟩
    · positivity
    · calc ((img.data.countP fun p => decide (p ≠ ⟨0, 0, 0⟩ ∧ p ≠ ⟨255, 255, 255⟩)) : ℚ) /
            (img.data.length : ℚ) * 100
          ≤ 1 * 100 := by
            apply mul_le_mul_of_nonneg_right _ (by norm_num)
            exact (div_le_one hlenQ).mpr hcnt
        _ = 100 := by norm_num
    · intro hall
      have hzero : img.data.countP (fun p => decide (p ≠ ⟨0, 0, 0⟩ ∧ p ≠ ⟨255, 255, 255⟩)) = 0 := by
        rw [List.countP_eq_zero]
        intro p hp
        simp only [decide_eq_true_eq, not_and, not_not]
        intro hb
        rcases hall p hp with h | h
        · exact absurd h hb
        · exact h
      rw [hzero]
      norm_num
    · intro _ hall
      have hfull : img.data.countP (fun p => decide (p ≠ ⟨0, 0, 0⟩ ∧ p ≠ ⟨255, 255, 255⟩)) =
          img.data.length := by
        rw [List.countP_eq_length]
        intro p hp
        exact decide_eq_true (hall p hp)
      rw [hfull, div_self (ne_of_gt hlenQ)]
      norm_num

/-- Witness for C6 at a concrete image: the score equals the counting
formula there (and evaluates to 50). -/
theorem C6_witness :
    imgHalf.data ≠ [] ∧
    calculate_non_bw_percentage imgHalf =
      100 * ((imgHalf.data.countP fun p => decide (p ≠ ⟨0, 0, 0⟩ ∧ p ≠ ⟨255, 255, 255⟩)) : ℚ) /
        (imgHalf.data.length : ℚ) :=
  ⟨by decide, (C6_interest_score imgHalf).1 (by decide)⟩

theorem minBy_split (key : RGB → Int) (l : List RGB) :
    ∀ b : RGB, ∃ pre suf, b :: l = pre ++ minBy key b l :: suf ∧
      (∀ c ∈ pre, key (minBy key b l) < key c) ∧
      (∀ c ∈ suf, key (minBy key b l) ≤ key c) := by
  induction l with
  | nil =>
    intro b
    exact ⟨[], [], rfl, by simp, by simp⟩
  | cons c cs ih =>
    intro b
    by_cases h : key c < key b
    · have hm : minBy key b (c :: cs) = minBy key c cs := by
        show minBy key (if key c < key b then c else b) cs = _
        rw [if_pos h]
      obtain ⟨pre, suf, heq, hpre, hsuf⟩ := ih c
      rw [hm]
      refine ⟨b :: pre, suf, by rw [List.cons_append, ← heq], ?_, hsuf⟩
      intro x hx
      rcases List.mem_cons.mp hx with hxb | hxpre
      · subst hxb
        have hrc : key (minBy key c cs) ≤ key c := by
          cases pre with
          | nil =>
            rw [List.nil_append] at heq
            injection heq with h1 _
            rw [← h1]
          | cons p ps =>
            rw [List.cons_append] at heq
            injection heq with h1 _
            exact le_of_lt (h1 ▸ hpre p (List.mem_cons_self p ps))
        exact lt_of_le_of_lt hrc h
      · exact hpre x hxpre
    · have hm : minBy key b (c :: cs) = minBy key b cs := by
        show minBy key (if key c < key b then c else b) cs = _
        rw [if_neg h]
      obtain ⟨pre, suf, heq, hpre, hsuf⟩ := ih b
      rw [hm]
      cases pre with
      | nil =>
        rw [List.nil_append] at heq
        injection heq with h1 h2
        refine ⟨[], c :: cs, by rw [List.nil_append, ← h1], by simp, ?_⟩
        intro x hx
        rcases List.mem_cons.mp hx with hxc | hxcs
        · subst hxc
          rw [← h1]
          exact le_of_not_lt h
        · exact hsuf x (h2 ▸ hxcs)
      | cons p ps =>
        rw [List.cons_append] at heq
        injection heq with h1 h2
        rw [← h1] at hpre
        refine ⟨b :: c :: ps, suf, ?_, ?_, hsuf⟩
        · rw [List.cons_append, List.cons_append, ← h2]
        · intro x hx
          rcases List.mem_cons.mp hx with hxb | hx2
          · rw [hxb]
            exact hpre b (List.mem_cons_self b ps)
          · rcases List.mem_cons.mp hx2 with hxc | hxps
            · rw [hxc]
              exact lt_of_lt_of_le (hpre b (List.mem_cons_self b ps)) (le_of_not_lt h)
            · exact hpre x (List.mem_cons_of_mem b hxps)

/-- C5: the quantizer keeps the image dimensions, maps every pixel
independently, sends every pixel within the white threshold (compared via
squared Euclidean distances, equivalent for a nonnegative threshold) to
pure white, and sends every other pixel to the first palette color, in
declaration order starting with red, whose Euclidean RGB distance to the
pixel is minimal: every earlier palette color is strictly farther and
every later one no closer. -/
theorem C5_quantizer (t : Nat) (img : Img) :
    (quantize_to_seven_colors t img).width = img.width ∧
    (quantize_to_seven_colors t img).height = img.height ∧
    (quantize_to_seven_colors t img).data = img.data.map (quantizePixel t) ∧
    ∀ p : RGB,
      (distSq p white ≤ (t : Int) ^ 2 → quantizePixel t p = white) ∧
      ((t : Int) ^ 2 < distSq p white →
        ∃ pre suf, palette5 = pre ++ quantizePixel t p :: suf ∧
          (∀ c ∈ pre, distSq p (quantizePixel t p) < distSq p c) ∧
          (∀ c ∈ suf, distSq p (quantizePixel t p) ≤ distSq p c)) := by
  refine ⟨rfl, rfl, rfl, ?_⟩
  intro p
  constructor
  · intro h
    unfold quantizePixel
    rw [if_pos h]
  · intro h
    have hq : quantizePixel t p = bestColor p := by
      unfold quantizePixel
      rw [if_neg (not_le.mpr h)]
    rw [hq]
    exact minBy_split (fun c => distSq p c)
      [⟨0, 255, 0⟩, ⟨0, 0, 255⟩, ⟨255, 255, 0⟩, ⟨255, 128, 0⟩, ⟨0, 0, 0⟩] ⟨255, 0, 0⟩

/-- Witness for C5 at a concrete pixel: (200, 10, 10) is farther from
white than threshold 75 and is quantized to the first minimal palette
color of the split. -/
theorem C5_witness :
    ((75 : Nat) : Int) ^ 2 < distSq ⟨200, 10, 10⟩ white ∧
    ∃ pre suf, palette5 = pre ++ quantizePixel 75 ⟨200, 10, 10⟩ :: suf ∧
      (∀ c ∈ pre, distSq ⟨200, 10, 10⟩ (quantizePixel 75 ⟨200, 10, 10⟩) < distSq ⟨200, 10, 10⟩ c) ∧
      (∀ c ∈ suf, distSq ⟨200, 10, 10⟩ (quantizePixel 75 ⟨200, 10, 10⟩) ≤ distSq ⟨200, 10, 10⟩ c) :=
  ⟨by decide, ((C5_quantizer 75 imgA).2.2.2 ⟨200, 10, 10⟩).2 (by decide)⟩

theorem bestColor_mem (p : RGB) : bestColor p ∈ palette5 := by
  obtain ⟨pre, suf, heq, _, _⟩ := minBy_split (fun c => distSq p c)
    [⟨0, 255, 0⟩, ⟨0, 0, 255⟩, ⟨255, 255, 0⟩, ⟨255, 128, 0⟩, ⟨0, 0, 0⟩] ⟨255, 0, 0⟩
  show bestColor p ∈
    (⟨255, 0, 0⟩ :: [⟨0, 255, 0⟩, ⟨0, 0, 255⟩, ⟨255, 255, 0⟩, ⟨255, 128, 0⟩, ⟨0, 0, 0⟩] : List RGB)
  rw [heq]
  exact List.mem_append_right pre (List.mem_cons_self _ suf)

theorem palette5_far_from_white : ∀ c ∈ palette5, (65025 : Int) ≤ distSq c white := by decide

theorem bestColor_fixed : ∀ c ∈ palette5, bestColor c = c := by decide

theorem quantizePixel_idem (t : Nat) (ht : t < 255) (p : RGB) :
    quantizePixel t (quantizePixel t p) = quantizePixel t p := by
  by_cases h : distSq p white ≤ (t : Int) ^ 2
  · have h1 : quantizePixel t p = white := by
      unfold quantizePixel
      rw [if_pos h]
    rw [h1]
    unfold quantizePixel
    rw [if_pos]
    have hww : distSq white white = 0 := by decide
    rw [hww]
    exact sq_nonneg _
  · have h2 : quantizePixel t p = bestColor p := by
      unfold quantizePixel
      rw [if_neg h]
    have hmem := bestColor_mem p
    have hfar : ¬ distSq (bestColor p) white ≤ (t : Int) ^ 2 := by
      have hle : (t : Int) ≤ 254 := by exact_mod_cast Nat.lt_succ_iff.mp ht
      have h0 : (0 : Int) ≤ (t : Int) := Int.natCast_nonneg t
      have h254 : (t : Int) ^ 2 ≤ 254 ^ 2 := pow_le_pow_left₀ h0 hle 2
      have hbig := palette5_far_from_white _ hmem
      intro hcon
      have : (65025 : Int) ≤ 254 ^ 2 := le_trans hbig (le_trans hcon h254)
      norm_num at this
    rw [h2]
    unfold quantizePixel
    rw [if_neg hfar, bestColor_fixed _ hmem]

/-- C10: for every threshold below 255 the quantizer is idempotent (white
survives, and each non-white palette color is farther from white than any
such threshold while being its own nearest palette color); at threshold
255 idempotence fails, witnessed by an image that quantizes to yellow and
then collapses to white. -/
theorem C10_idempotence :
    (∀ t : Nat, t < 255 → ∀ img : Img,
      quantize_to_seven_colors t (quantize_to_seven_colors t img) =
        quantize_to_seven_colors t img) ∧
    quantize_to_seven_colors 255 (quantize_to_seven_colors 255 imgYellow) ≠
      quantize_to_seven_colors 255 imgYellow := by
  constructor
  · intro t ht img
    unfold quantize_to_seven_colors
    simp only [Img.mk.injEq, List.map_map]
    refine ⟨trivial, trivial, trivial, ?_⟩
    apply List.map_congr_left
    intro a _
    exact quantizePixel_idem t ht a
  · decide

/-- Witness for C10 at threshold 75 and a concrete image. -/
theorem C10_witness :
    quantize_to_seven_colors 75 (quantize_to_seven_colors 75 imgYellow) =
      quantize_to_seven_colors 75 imgYellow :=
  C10_idempotence.1 75 (by decide) imgYellow

/-- Counterexample to C4 as stated: with a valid mode and a previously
persisted quantized image equal to the newly computed one, the call still
emits a write of the quantized artifact (the save inside
`quantize_to_seven_colors` is unconditional); only the returned flag
reports "unchanged". -/
theorem C4_counterexample :
    images_are_equal (quantize_to_seven_colors 75 canvasC4)
      (quantize_to_seven_colors 75 canvasC4) = true ∧
    FEv.writeQuant (quantize_to_seven_colors 75 canvasC4) ∈
      (generate_weather_image_file "crop" "KTYX" (some canvasC4) id
        (some (quantize_to_seven_colors 75 canvasC4))).1 ∧
    (generate_weather_image_file "crop" "KTYX" (some canvasC4) id
      (some (quantize_to_seven_colors 75 canvasC4))).2 = .ok (some (none, false)) := by
  refine ⟨by decide, by decide, by decide⟩

/-- C4 amended: on every successful generation (valid mode, fetched frame)
the quantized artifact is written, unconditionally; exact mode-and-pixel
equality with the previously persisted image controls only the returned
(path, updated) value, which reports "unchanged" when they are equal. -/
theorem C4_amended (radar_mode station : String) (raw : Img) (compose : Img → Img)
    (oldQuant : Option Img)
    (hmode : radar_mode = "crop" ∨ radar_mode = "fit") :
    FEv.writeQuant (quantize_to_seven_colors 75 (compose raw)) ∈
      (generate_weather_image_file radar_mode station (some raw) compose oldQuant).1 ∧
    ∀ oq, oldQuant = some oq →
      images_are_equal oq (quantize_to_seven_colors 75 (compose raw)) = true →
      (generate_weather_image_file radar_mode station (some raw) compose oldQuant).2 =
        .ok (some (none, false)) := by
  simp only [generate_weather_image_file]
  rw [if_pos hmode]
  constructor
  · simp
  · intro oq hoq heq
    rw [hoq]
    simp [heq]

/-- Witness for the amended C4 at concrete inputs. -/
theorem C4_witness :
    FEv.writeQuant (quantize_to_seven_colors 75 canvasC4) ∈
      (generate_weather_image_file "fit" "KTYX" (some canvasC4) id none).1 :=
  (C4_amended "fit" "KTYX" canvasC4 id none (Or.inr (by decide))).1

/-- Counterexample to C9 as stated: with the invalid scaling mode
"stretch" and a successful fetch, the call raises the invalid-mode error,
but the trace already contains the network fetch — the failure happens
after network I/O, not before. -/
theorem C9_counterexample :
    generate_weather_image_file "stretch" "KTYX" (some imgA) id none =
      ([FEv.netFetch], .error .invalidMode) := by decide

/-- C9 amended: an invalid scaling mode (lower-cased value neither
"crop" nor "fit") makes processing fail with the invalid-configuration
error, but only after the radar frame has been fetched over the network
(the trace up to the error is exactly the fetch); when the fetch itself
fails, the mode is never checked and no configuration error is raised. -/
theorem C9_amended (radar_mode station : String) (raw : Img) (compose : Img → Img)
    (oldQuant : Option Img)
    (h1 : radar_mode ≠ "crop") (h2 : radar_mode ≠ "fit") :
    generate_weather_image_file radar_mode station (some raw) compose oldQuant =
      ([FEv.netFetch], .error .invalidMode) ∧
    generate_weather_image_file radar_mode station none compose oldQuant =
      ([FEv.netFetch], .ok none) := by
  refine ⟨?_, rfl⟩
  simp only [generate_weather_image_file]
  rw [if_neg]
  push_neg
  exact ⟨h1, h2⟩

/-- Witness for the amended C9 at concrete inputs. -/
theorem C9_witness :
    generate_weather_image_file "stretch2" "KTYX" (some imgA) id none =
      ([FEv.netFetch], .error .invalidMode) ∧
    generate_weather_image_file "stretch2" "KTYX" none id none =
      ([FEv.netFetch], .ok none) :=
  C9_amended "stretch2" "KTYX" imgA id none (by decide) (by decide)

/-- Counterexample to C1 as stated: the candidate search runs, the
candidate KABC scores 3 while the default scored 5, yet the cycle selects
KABC's image — the loop compares candidates against a running best
initialised to 0 and never against the default's score, so the selection
is not the maximum over {default, candidates}. -/
theorem C1_counterexample :
    envC1.gwi envC1.defaultStation = .ok true 5 ∧
    envC1.gwi "KABC" = .ok true 3 ∧
    (3 : ℚ) < 5 ∧
    quantPath "KABC" ≠ quantPath "KDEF" ∧
    (mainModel envC1).2 =
      .ok ⟨quantPath "KABC", true, ⟨some 100, [("KABC", 60)]⟩⟩ := by
  refine ⟨by decide, by decide, by norm_num, by decide, by decide⟩

/-- C2 code bug, evaluated at the failing input: a fetch failure for a
cached-top5 candidate makes `generate_weather_image` return `None`, and
the loop's tuple unpacking `image_path, updated = ...` then raises
`TypeError`, aborting the whole run instead of skipping the candidate (the
loop's "Skipping ... due to image fetch failure" branch is unreachable for
real fetch failures). -/
theorem C2_candidate_fetch_failure_aborts :
    mainModel envC2 =
      ([Ev.netFetch "KDEF", Ev.netFetch "KAAA"], .error .typeError) := by decide

/-- Counterexample to C3 as stated: the interval has elapsed, yet because
the default check short-circuited (image unchanged, `should_update`
false), the cycle performs no full scan: the trace holds only the default
fetch — no timestamp write, no per-station scan fetches, no top5 write —
and the persisted cache is untouched. -/
theorem C3_counterexample :
    envC3.full_scan_interval ≤ envC3.now - lastTimeD envC3 ∧
    mainModel envC3 =
      ([Ev.netFetch "KDEF"], .ok ⟨quantPath "KDEF", false, ⟨some 1000, [("KABC", 60)]⟩⟩) := by
  refine ⟨by decide, by decide⟩

theorem candidateLoop_cons_fail (gwi : String → GwiOutcome) (st : String) (rest : List String)
    (acc : LoopAcc) (h : gwi st = .fetchFail) :
    candidateLoop gwi (st :: rest) acc = ([Ev.netFetch st], .error .typeError) := by
  unfold candidateLoop
  rw [h]

theorem candidateLoop_cons_skip (gwi : String → GwiOutcome) (st : String) (rest : List String)
    (acc : LoopAcc) (p : ℚ) (h : gwi st = .ok false p) :
    candidateLoop gwi (st :: rest) acc =
      (Ev.netFetch st :: (candidateLoop gwi rest acc).1, (candidateLoop gwi rest acc).2) := by
  simp [candidateLoop, h]

theorem candidateLoop_cons_upd (gwi : String → GwiOutcome) (st : String) (rest : List String)
    (acc : LoopAcc) (p : ℚ) (h : gwi st = .ok true p) :
    candidateLoop gwi (st :: rest) acc =
      (Ev.netFetch st ::
        (candidateLoop gwi rest (if acc.best_percentage < p then
          ⟨some st, p, some (quantPath st), true⟩
          else { acc with should_update := true })).1,
        (candidateLoop gwi rest (if acc.best_percentage < p then
          ⟨some st, p, some (quantPath st), true⟩
          else { acc with should_update := true })).2) := by
  simp [candidateLoop, h]

theorem candidateLoop_events (gwi : String → GwiOutcome) :
    ∀ (l : List String) (acc : LoopAcc),
      ∀ e ∈ (candidateLoop gwi l acc).1, ∃ s, e = Ev.netFetch s := by
  intro l
  induction l with
  | nil =>
    intro acc e he
    simp [candidateLoop] at he
  | cons st rest ih =>
    intro acc e he
    cases hg : gwi st with
    | fetchFail =>
      rw [candidateLoop_cons_fail gwi st rest acc hg] at he
      simp at he
      exact ⟨st, he⟩
    | ok u p =>
      cases u with
      | false =>
        rw [candidateLoop_cons_skip gwi st rest acc p hg] at he
        rcases List.mem_cons.mp he with h1 | h1
        · exact ⟨st, h1⟩
        · exact ih acc e h1
      | true =>
        rw [candidateLoop_cons_upd gwi st rest acc p hg] at he
        rcases List.mem_cons.mp he with h1 | h1
        · exact ⟨st, h1⟩
        · exact ih _ e h1

theorem candidateLoop_ok (gwi : String → GwiOutcome) :
    ∀ (l : List String) (acc : LoopAcc), (∀ s ∈ l, gwi s ≠ .fetchFail) →
      (candidateLoop gwi l acc).2 = .ok (runBest acc (evalCands gwi l)) := by
  intro l
  induction l with
  | nil => intro acc _; rfl
  | cons st rest ih =>
    intro acc h
    cases hg : gwi st with
    | fetchFail => exact absurd hg (h st (List.mem_cons_self _ _))
    | ok u p =>
      have hrest : ∀ s ∈ rest, gwi s ≠ .fetchFail :=
        fun s hs => h s (List.mem_cons_of_mem _ hs)
      cases u with
      | false =>
        rw [candidateLoop_cons_skip gwi st rest acc p hg]
        have he : evalCands gwi (st :: rest) = evalCands gwi rest := by
          unfold evalCands
          rw [List.filterMap_cons, hg]
        rw [he]
        exact ih acc hrest
      | true =>
        rw [candidateLoop_cons_upd gwi st rest acc p hg]
        have he : evalCands gwi (st :: rest) = (st, p) :: evalCands gwi rest := by
          unfold evalCands
          rw [List.filterMap_cons, hg]
        rw [he]
        show _ = Except.ok (runBest _ _)
        rw [runBest]
        exact ih _ hrest

theorem runBest_su (l : List (String × ℚ)) :
    ∀ acc : LoopAcc, acc.should_update = true → (runBest acc l).should_update = true := by
  induction l with
  | nil => intro acc h; exact h
  | cons x rest ih =>
    intro acc h
    rw [runBest]
    split
    · exact ih _ rfl
    · exact ih _ rfl

theorem runBest_split (l : List (String × ℚ)) :
    ∀ acc : LoopAcc,
      (runBest acc l = (if l = [] then acc else { acc with should_update := true }) ∧
        ∀ x ∈ l, x.2 ≤ acc.best_percentage) ∨
      (∃ pre c suf, l = pre ++ c :: suf ∧ acc.best_percentage < c.2 ∧
        (∀ x ∈ pre, x.2 < c.2) ∧ (∀ x ∈ suf, x.2 ≤ c.2) ∧
        runBest acc l = ⟨some c.1, c.2, some (quantPath c.1), true⟩) := by
  induction l with
  | nil =>
    intro acc
    exact Or.inl ⟨by rw [if_pos rfl]; rfl, by simp⟩
  | cons x rest ih =>
    intro acc
    by_cases hx : acc.best_percentage < x.2
    · have hstep : runBest acc (x :: rest) =
          runBest ⟨some x.1, x.2, some (quantPath x.1), true⟩ rest := by
        rw [runBest, if_pos hx]
      rcases ih ⟨some x.1, x.2, some (quantPath x.1), true⟩ with ⟨hres, hall⟩ | hres
      · have hres2 : runBest (⟨some x.1, x.2, some (quantPath x.1), true⟩ : LoopAcc) rest =
            ⟨some x.1, x.2, some (quantPath x.1), true⟩ := by
          rcases rest with _ | ⟨y, ys⟩
          · simpa using hres
          · simpa using hres
        refine Or.inr ⟨[], x, rest, rfl, hx, by simp, hall, ?_⟩
        rw [hstep, hres2]
      · obtain ⟨pre, c, suf, heq, hlt, hpre, hsuf, hres⟩ := hres
        refine Or.inr ⟨x :: pre, c, suf, by rw [List.cons_append, heq], lt_trans hx hlt, ?_,
          hsuf, by rw [hstep, hres]⟩
        intro y hy
        rcases List.mem_cons.mp hy with h1 | h1
        · rw [h1]; exact hlt
        · exact hpre y h1
    · have hstep : runBest acc (x :: rest) =
          runBest { acc with should_update := true } rest := by
        rw [runBest, if_neg hx]
      rcases ih { acc with should_update := true } with ⟨hres, hall⟩ | hres
      · have hres2 : runBest { acc with should_update := true } rest =
            { acc with should_update := true } := by
          rcases rest with _ | ⟨y, ys⟩
          · simpa using hres
          · simpa using hres
        refine Or.inl ⟨?_, ?_⟩
        · rw [if_neg (List.cons_ne_nil x rest), hstep, hres2]
        · intro y hy
          rcases List.mem_cons.mp hy with h1 | h1
          · rw [h1]; exact le_of_not_lt hx
          · exact hall y h1
      · obtain ⟨pre, c, suf, heq, hlt, hpre, hsuf, hres⟩ := hres
        refine Or.inr ⟨x :: pre, c, suf, by rw [List.cons_append, heq],
          lt_of_le_of_lt (le_refl _) hlt, ?_, hsuf, by rw [hstep, hres]⟩
        intro y hy
        rcases List.mem_cons.mp hy with h1 | h1
        · rw [h1]; exact lt_of_le_of_lt (le_of_not_lt hx) hlt
        · exact hpre y h1

theorem evalCands_fst_mem (gwi : String → GwiOutcome) :
    ∀ (names : List String) (x : String × ℚ), x ∈ evalCands gwi names → x.1 ∈ names := by
  intro names
  induction names with
  | nil => intro x hx; simp [evalCands] at hx
  | cons s rest ih =>
    intro x hx
    unfold evalCands at hx
    rw [List.filterMap_cons] at hx
    cases hg : gwi s with
    | fetchFail =>
      rw [hg] at hx
      exact List.mem_cons_of_mem s (ih x hx)
    | ok u p =>
      cases u with
      | false =>
        rw [hg] at hx
        exact List.mem_cons_of_mem s (ih x hx)
      | true =>
        rw [hg] at hx
        rcases List.mem_cons.mp hx with h1 | h1
        · rw [h1]
          exact List.mem_cons_self s rest
        · exact List.mem_cons_of_mem s (ih x h1)

theorem full_station_scan_events (gwi : String → GwiOutcome) :
    ∀ l : List String, ∀ e ∈ (full_station_scan gwi l).1, ∃ s, e = Ev.netFetch s := by
  intro l
  induction l with
  | nil =>
    intro e he
    simp [full_station_scan] at he
  | cons st rest ih =>
    intro e he
    unfold full_station_scan at he
    by_cases hs : st = ""
    · rw [if_pos hs] at he
      exact ih e he
    · rw [if_neg hs] at he
      cases hg : gwi st with
      | fetchFail =>
        rw [hg] at he
        rcases List.mem_cons.mp he with h1 | h1
        · exact ⟨st, h1⟩
        · exact ih e h1
      | ok u p =>
        rw [hg] at he
        rcases List.mem_cons.mp he with h1 | h1
        · exact ⟨st, h1⟩
        · exact ih e h1

theorem mainModel_scan (env : Env) (dp : ℚ)
    (hdef : env.gwi env.defaultStation = .ok true dp)
    (hnf : ∀ s ∈ (cachedTop5 env).map Prod.fst, env.gwi s ≠ .fetchFail)
    (hstale : env.full_scan_interval ≤ env.now - lastTimeD env) :
    ∃ pre r, (mainModel env).1 = pre ++ Ev.saveTimestamp env.now ::
        ((full_station_scan env.gwi env.stations).1 ++
          [Ev.saveTop5 (update_top5 (full_station_scan env.gwi env.stations).2)]) ∧
      (∀ e ∈ pre, (∃ s, e = Ev.netFetch s) ∨ ∃ pa, e = Ev.display pa) ∧
      (mainModel env).2 = .ok r ∧
      r.cache = ⟨some env.now, update_top5 (full_station_scan env.gwi env.stations).2⟩ := by
  have hloop := candidateLoop_ok env.gwi ((cachedTop5 env).map Prod.fst) ⟨none, 0, none, true⟩ hnf
  have hsu := runBest_su (evalCands env.gwi ((cachedTop5 env).map Prod.fst)) ⟨none, 0, none, true⟩ rfl
  have hlev := candidateLoop_events env.gwi ((cachedTop5 env).map Prod.fst) ⟨none, 0, none, true⟩
  simp only [mainModel, hdef]
  by_cases hcond : dp < env.interesting_threshold ∧ cachedTop5 env ≠ []
  · rw [if_pos ⟨trivial, hcond.1, hcond.2⟩, hloop]
    simp only [scanPhase, if_pos hstale, hsu, if_pos rfl]
    rw [if_pos trivial]
    refine ⟨_, _, rfl, ?_, rfl, rfl⟩
    intro e he
    rcases List.mem_append.mp he with h1 | h2
    · rcases List.mem_append.mp h1 with h3 | h4
      · left
        exact ⟨env.defaultStation, List.mem_singleton.mp h3⟩
      · left
        exact hlev e h4
    · right
      by_cases hl : env.isLinux = true
      · rw [if_pos hl] at h2
        exact ⟨_, List.mem_singleton.mp h2⟩
      · rw [if_neg hl] at h2
        exact absurd h2 (List.not_mem_nil e)
  · rw [if_neg (fun hcc => hcond ⟨hcc.2.1, hcc.2.2⟩)]
    simp only [scanPhase, if_pos hstale]
    rw [if_pos trivial]
    refine ⟨_, _, rfl, ?_, rfl, rfl⟩
    intro e he
    rcases List.mem_append.mp he with h1 | h2
    · rcases List.mem_append.mp h1 with h3 | h4
      · left
        exact ⟨env.defaultStation, List.mem_singleton.mp h3⟩
      · exact absurd h4 (List.not_mem_nil e)
    · right
      by_cases hl : env.isLinux = true
      · rw [if_pos hl] at h2
        exact ⟨_, List.mem_singleton.mp h2⟩
      · rw [if_neg hl] at h2
        exact absurd h2 (List.not_mem_nil e)

/-- C1 amended: when the candidate search runs and every cached-top5
candidate fetch succeeds (station names nonempty), the loop never compares
against the default's score: if no changed candidate scores strictly above
0 the default's image is kept, and otherwise the display switches to the
first-evaluated changed candidate whose score strictly exceeds every
earlier one and is not exceeded later — the first maximiser of the
candidate scores — even when that maximum is below the default's own
score. -/
theorem C1_selection_amended (env : Env) (dp : ℚ)
    (hdef : env.gwi env.defaultStation = .ok true dp)
    (hlt : dp < env.interesting_threshold)
    (htop : cachedTop5 env ≠ [])
    (hnf : ∀ s ∈ (cachedTop5 env).map Prod.fst, env.gwi s ≠ .fetchFail)
    (hne : ∀ s ∈ (cachedTop5 env).map Prod.fst, s ≠ "") :
    ∃ r, (mainModel env).2 = .ok r ∧
      (((∀ x ∈ evalCands env.gwi ((cachedTop5 env).map Prod.fst), x.2 ≤ 0) ∧
          r.final_display = quantPath env.defaultStation) ∨
        (∃ pre c suf, evalCands env.gwi ((cachedTop5 env).map Prod.fst) = pre ++ c :: suf ∧
          0 < c.2 ∧ (∀ x ∈ pre, x.2 < c.2) ∧ (∀ x ∈ suf, x.2 ≤ c.2) ∧
          r.final_display = quantPath c.1)) := by
  have hloop := candidateLoop_ok env.gwi ((cachedTop5 env).map Prod.fst) ⟨none, 0, none, true⟩ hnf
  simp only [mainModel, hdef]
  rw [if_pos ⟨trivial, hlt, htop⟩, hloop]
  rcases runBest_split (evalCands env.gwi ((cachedTop5 env).map Prod.fst)) ⟨none, 0, none, true⟩
    with ⟨hres, hall⟩ | ⟨pre, c, suf, heq, hlt0, hpre, hsuf, hres⟩
  · have hacc : runBest ⟨none, 0, none, true⟩
        (evalCands env.gwi ((cachedTop5 env).map Prod.fst)) = ⟨none, 0, none, true⟩ := by
      rw [hres]
      split
      · rfl
      · rfl
    rw [hacc]
    simp only [truthy]
    rw [if_pos trivial]
    refine ⟨_, rfl, Or.inl ⟨hall, ?_⟩⟩
    simp
  · have hc1 : c.1 ≠ "" := by
      apply hne
      apply evalCands_fst_mem env.gwi ((cachedTop5 env).map Prod.fst)
      rw [heq]
      exact List.mem_append_right pre (List.mem_cons_self c suf)
    rw [hres]
    simp only [truthy]
    refine ⟨_, rfl, Or.inr ⟨pre, c, suf, heq, hlt0, hpre, hsuf, ?_⟩⟩
    simp [hc1]

/-- Witness for the amended C1 at the concrete environment envC1. -/
theorem C1_witness :
    ∃ r, (mainModel envC1).2 = .ok r ∧
      (((∀ x ∈ evalCands envC1.gwi ((cachedTop5 envC1).map Prod.fst), x.2 ≤ 0) ∧
          r.final_display = quantPath envC1.defaultStation) ∨
        (∃ pre c suf, evalCands envC1.gwi ((cachedTop5 envC1).map Prod.fst) = pre ++ c :: suf ∧
          0 < c.2 ∧ (∀ x ∈ pre, x.2 < c.2) ∧ (∀ x ∈ suf, x.2 ≤ c.2) ∧
          r.final_display = quantPath c.1)) :=
  C1_selection_amended envC1 5 (by decide) (by decide) (by decide) (by decide) (by decide)

/-- C3 amended: the full scan is gated on `should_update` (some image
changed this cycle) as well as on staleness.  When the default check
short-circuits (image unchanged), the cycle ends immediately after the
default fetch — no timestamp write, no scan, cache untouched — no matter
how stale the cache is; when the default image did change and the interval
has elapsed, the scan trigger (the timestamp write) does occur. -/
theorem C3_scan_gating (env : Env) (dp : ℚ) :
    (env.gwi env.defaultStation = .ok false dp →
      mainModel env = ([Ev.netFetch env.defaultStation],
        .ok ⟨quantPath env.defaultStation, false, initCache env⟩)) ∧
    (env.gwi env.defaultStation = .ok true dp →
      (∀ s ∈ (cachedTop5 env).map Prod.fst, env.gwi s ≠ .fetchFail) →
      env.full_scan_interval ≤ env.now - lastTimeD env →
      Ev.saveTimestamp env.now ∈ (mainModel env).1) := by
  constructor
  · intro hdef
    simp [mainModel, hdef, truthy]
  · intro hdef hnf hstale
    obtain ⟨pre, r, h1, _, _, _⟩ := mainModel_scan env dp hdef hnf hstale
    rw [h1]
    exact List.mem_append_right pre (List.mem_cons_self _ _)

/-- Witness for the amended C3: both gating directions at concrete
environments. -/
theorem C3_witness :
    mainModel envC3 = ([Ev.netFetch envC3.defaultStation],
      .ok ⟨quantPath envC3.defaultStation, false, initCache envC3⟩) ∧
    Ev.saveTimestamp envC8.now ∈ (mainModel envC8).1 :=
  ⟨(C3_scan_gating envC3 50).1 (by decide),
   (C3_scan_gating envC8 40).2 (by decide) (by decide) (by decide)⟩

/-- C8: whenever the cycle decides to run a full scan (stale cache and the
default image changed, so `should_update` holds), the trace ends with the
timestamp write, then exactly the scan's per-station network fetches, then
the top5 write; everything before the timestamp write is default/candidate
fetches or the display call, and the cycle ends with the cache holding the
new timestamp and the new top5. -/
theorem C8_scan_cache_write_order (env : Env) (dp : ℚ)
    (hdef : env.gwi env.defaultStation = .ok true dp)
    (hnf : ∀ s ∈ (cachedTop5 env).map Prod.fst, env.gwi s ≠ .fetchFail)
    (hstale : env.full_scan_interval ≤ env.now - lastTimeD env) :
    ∃ pre r, (mainModel env).1 = pre ++ Ev.saveTimestamp env.now ::
        ((full_station_scan env.gwi env.stations).1 ++
          [Ev.saveTop5 (update_top5 (full_station_scan env.gwi env.stations).2)]) ∧
      (∀ e ∈ pre, (∃ s, e = Ev.netFetch s) ∨ ∃ pa, e = Ev.display pa) ∧
      (∀ e ∈ (full_station_scan env.gwi env.stations).1, ∃ s, e = Ev.netFetch s) ∧
      (mainModel env).2 = .ok r ∧
      r.cache = ⟨some env.now, update_top5 (full_station_scan env.gwi env.stations).2⟩ := by
  obtain ⟨pre, r, h1, h2, h3, h4⟩ := mainModel_scan env dp hdef hnf hstale
  exact ⟨pre, r, h1, h2, full_station_scan_events env.gwi env.stations, h3, h4⟩

/-- Witness for C8 at the concrete environment envC8. -/
theorem C8_witness :
    ∃ pre r, (mainModel envC8).1 = pre ++ Ev.saveTimestamp envC8.now ::
        ((full_station_scan envC8.gwi envC8.stations).1 ++
          [Ev.saveTop5 (update_top5 (full_station_scan envC8.gwi envC8.stations).2)]) ∧
      (∀ e ∈ pre, (∃ s, e = Ev.netFetch s) ∨ ∃ pa, e = Ev.display pa) ∧
      (∀ e ∈ (full_station_scan envC8.gwi envC8.stations).1, ∃ s, e = Ev.netFetch s) ∧
      (mainModel envC8).2 = .ok r ∧
      r.cache = ⟨some envC8.now, update_top5 (full_station_scan envC8.gwi envC8.stations).2⟩ :=
  C8_scan_cache_write_order envC8 40 (by decide) (by decide) (by decide)

end Eink
